import Mathlib

/-!
Verification of the battle resolution engine of the `pokemonML` repository
against its natural-language specification.

The Python sources are shallowly embedded: numbers are rationals (`ℚ`),
mutation is explicit state passing, the random draws consumed by the code
(accuracy roll, critical roll, damage-variance choice, tie-break draws) are
explicit parameters, and fallible operations return `Except`.

Embedded files:
  * `src/pokemonml/moves.py`          (`Move`)
  * `src/pokemonml/stats.py`          (`Stats.calculate_hp`, crit table)
  * `src/pokemonml/create_pokemon.py` (`Pokemon`, `take_damage`, `heal`)
  * `src/pokemonml/team.py`           (`Team`, `switch_to`)
  * `src/pokemonml/damage.py`         (`PokemonDamageCalculator`)
  * `src/pokemonml/right_move_machine.py` (`RightMoveMachine.find_best_move`)
  * `src/pokemonml/battle_simulator.py`   (`BattleSimulator.full_turn_interaction`)
  * `src/GUI/appbis.py`               (`simulate_battle` turn body)
-/

namespace PokemonML

/-! ## Numeric helpers mirroring Python builtins -/

/-- Python `round` to an integer: round half to even (banker's rounding is
the Python 3 semantics of `round`). -/
def pyRound (q : ℚ) : ℤ :=
  let f : ℤ := ⌊q⌋
  let r : ℚ := q - f
  if r < 1/2 then f
  else if 1/2 < r then f + 1
  else if f % 2 = 0 then f else f + 1

/-- Python `round(x, 2)`: round to two decimal places. -/
def round2 (q : ℚ) : ℚ := (pyRound (q * 100) : ℚ) / 100

/-- Python `int(x)` on a float: truncation toward zero. -/
def pyInt (q : ℚ) : ℤ := if q < 0 then ⌈q⌉ else ⌊q⌋

/-! ## `src/pokemonml/moves.py` -/

/-- Field content of the Python class `Move`. -/
structure Move where
  name : String
  element : String
  damage : ℤ
  damage_class : String
  accuracy : ℚ
  pp : ℤ
  priority : ℤ
deriving DecidableEq

/-- Embedding of `Move.__init__` exactly as the source writes it: the
`priority` parameter is accepted but the field is assigned the literal `0`
(line 35 of `moves.py`: `self.priority = 0`). -/
def Move.init (name element : String) (damage : ℤ) (category : String)
    (accuracy : ℚ) (pp : ℤ) (priority : ℤ) : Move :=
  ⟨name, element, damage, category, accuracy, pp, 0⟩

/-- Embedding of `Move.from_csv_row`.  CSV cell parsing is abstracted: a
cell that parses as an integer is `some n`, a missing or unparsable cell is
`none` (in the source the `try/except int(...)calls` fall back to `0` for
power, `100` for accuracy, and `row.get` falls back to `0` for priority). -/
def Move.from_csv_row (name typ : String) (power : Option ℤ)
    (damage_class : String) (accuracy : Option ℤ) (pp : ℤ)
    (priority : Option ℤ) : Move :=
  Move.init name typ (power.getD 0) damage_class.toLower
    ((accuracy.getD 100 : ℤ) : ℚ) pp (priority.getD 0)

/-! ## `src/pokemonml/stats.py` -/

/-- Crit-stage table `tabCritChance = [0.0625, 0.125, 0.5, 1.0]`. -/
def tabCritChance : List ℚ := [1/16, 1/8, 1/2, 1]

/-- Field content of the Python class `Stats` that the battle engine reads.
The six stat values are rationals (Python mutates `health` with float
damage); the stage counters are the `accuracy`, `evasion` and `critChance`
fields initialised to 6, 6, 0 by `Stats.__init__`. -/
structure Stats where
  health : ℚ
  attack : ℚ
  defense : ℚ
  attack_spe : ℚ
  defense_spe : ℚ
  speed : ℚ
  accuracy_stage : ℕ
  evasion_stage : ℕ
  critChance : ℕ
deriving DecidableEq

/-- Embedding of `Stats.get_crit_chance`: `tabCritChance[self.critChance]`
(total via a default that is never reached while the stage is in 0..3). -/
def Stats.get_crit_chance (s : Stats) : ℚ := tabCritChance.getD s.critChance 0

/-- Embedding of `Stats.calculate_hp` (`stats.py` lines 146-156): the
source computes `math.floor(((iv + 2*base + (ev // 4)) * level) / 100) +
level + 10` where `ev // 4` is Python integer floor division.  Arguments
are the three numbers the method reads (`self.iv.health`, `self.health`,
`self.ev.health`) plus the level. -/
def calculate_hp (iv base ev level : ℕ) : ℤ :=
  ⌊(((iv : ℚ) + 2 * (base : ℚ) + ((ev / 4 : ℕ) : ℚ)) * (level : ℚ)) / 100⌋
    + (level : ℤ) + 10

/-- The health formula the specification states (section 4.1), read with
`training/4` as the exact rational quotient under the outer floor, for
comparison with `calculate_hp`. -/
def spec_health (base potential training level : ℕ) : ℤ :=
  ⌊(((potential : ℚ) + 2 * (base : ℚ) + (training : ℚ) / 4) * (level : ℚ)) / 100⌋
    + (level : ℤ) + 10

/-! ## `src/pokemonml/create_pokemon.py` -/

/-- Field content of the Python class `Pokemon`. -/
structure Pokemon where
  name : String
  base_stats : Stats
  current_stats : Stats
  type1 : String
  type2 : Option String
  level : ℕ
  moves : List Move
deriving DecidableEq

/-- Embedding of `Pokemon.take_damage`:
`self.current_stats.health = max(0, self.current_stats.health - damage)`. -/
def Pokemon.take_damage (p : Pokemon) (damage : ℚ) : Pokemon :=
  { p with current_stats :=
      { p.current_stats with health := max 0 (p.current_stats.health - damage) } }

/-- Embedding of `Pokemon.heal`:
`self.current_stats.health = min(self.base_stats.health, self.current_stats.health + amount)`. -/
def Pokemon.heal (p : Pokemon) (amount : ℚ) : Pokemon :=
  { p with current_stats :=
      { p.current_stats with
          health := min p.base_stats.health (p.current_stats.health + amount) } }

/-- Modelled from the spec: `Pokemon.is_fainted` is called by
`Team.switch_to`, `Team.is_defeated` and the GUI battle loop but is not
defined in any file under `src/`; the glossary of the spec defines Fainted
as a combatant whose current health has reached 0. -/
def Pokemon.is_fainted (p : Pokemon) : Bool := p.current_stats.health = 0

/-! ## `src/pokemonml/team.py` -/

/-- Field content of the Python class `Team`. -/
structure Team where
  name : String
  pokemons : List Pokemon
  active_index : ℕ
deriving DecidableEq

/-- Embedding of the property `Team.active_pokemon`
(`self.pokemons[self.active_index]`); `none` models the Python
`IndexError` on an out-of-range index. -/
def Team.active_pokemon (t : Team) : Option Pokemon := t.pokemons[t.active_index]?

/-- Embedding of `Team.is_defeated`: `all(p.is_fainted() for p in self.pokemons)`. -/
def Team.is_defeated (t : Team) : Bool := t.pokemons.all Pokemon.is_fainted

/-- Embedding of `Team.get_available_switches`: indices of benched,
non-fainted members, in roster order. -/
def Team.get_available_switches (t : Team) : List ℕ :=
  (t.pokemons.enum.filter
    (fun ip => decide (ip.1 ≠ t.active_index) && !ip.2.is_fainted)).map
    (fun ip => ip.1)

/-- Embedding of `Team.switch_to` (`team.py` lines 18-24): first the
active-index check, then the fainted check (an out-of-range index models
the Python `IndexError`), else the active index is updated and nothing
else changes. -/
def Team.switch_to (t : Team) (index : ℕ) : Except String Team :=
  if index = t.active_index then .error "Already active"
  else
    match t.pokemons[index]? with
    | none => .error "IndexError"
    | some p =>
      if p.is_fainted then .error "Cannot switch to a fainted Pokemon"
      else .ok { t with active_index := index }

/-! ## `src/pokemonml/damage.py` -/

/-- Field content of the data class `Attack`.  The `defender`, `attacker`
and `move` fields hold the deep copies taken by `_build_attack`; with value
semantics a copy is the value itself. -/
structure Attack where
  damage_range : ℚ × ℚ
  effective_damage : ℚ
  missed : Bool
  crit : Bool
  effectiveness : ℚ
  defender : Pokemon
  attacker : Pokemon
  move : Move
deriving DecidableEq

/-- Field content of the class `PokemonDamageCalculator`: the type chart
(loaded from CSV in the source, abstracted to its lookup function) and the
verbose flag. -/
structure PokemonDamageCalculator where
  type_chart : String → String → ℚ
  verbose : Bool

/-- Embedding of `PokemonDamageCalculator.get_effectiveness`. -/
def PokemonDamageCalculator.get_effectiveness (c : PokemonDamageCalculator)
    (attack_type defender_type : String) : ℚ :=
  c.type_chart attack_type defender_type

/-- The weighted list of `get_random_damage_multiplier`:
`[85,87,89,90,92,94,96,98]*3 + [86,88,91,93,95,97,99]*2 + [100]`. -/
def weighted_values : List ℕ :=
  let l1 : List ℕ := [85, 87, 89, 90, 92, 94, 96, 98]
  let l2 : List ℕ := [86, 88, 91, 93, 95, 97, 99]
  l1 ++ l1 ++ l1 ++ (l2 ++ l2) ++ [100]

/-- Embedding of `get_random_damage_multiplier`; `roll` is the element of
`weighted_values` that `random.choice` returns when randomness is on. -/
def get_random_damage_multiplier (roll : ℚ) (is_random : Bool) : ℚ :=
  if is_random then roll / 100
  else ((weighted_values.map (fun n => (n : ℚ))).sum
          / (weighted_values.length : ℚ)) / 100

/-- Embedding of `is_crit_hit`; `roll` is the `random.random()` draw:
crit iff `roll <= pokemon.base_stats.get_crit_chance()`. -/
def is_crit_hit (roll : ℚ) (pokemon : Pokemon) : Bool :=
  decide (roll ≤ pokemon.base_stats.get_crit_chance)

/-- Embedding of `move_hit`; `roll` is the `random.uniform(0, 100)` draw:
hit iff `roll < move.accuracy`. -/
def move_hit (roll : ℚ) (move : Move) : Bool :=
  decide (roll < move.accuracy)

/-- Embedding of `display_damage_range`:
`(round(base*0.85*eff, 2), round(base*eff, 2))`. -/
def display_damage_range (base_damage effectiveness : ℚ) : ℚ × ℚ :=
  (round2 (base_damage * (85/100) * effectiveness),
   round2 (base_damage * effectiveness))

/-- Embedding of `_return_miss_attack`:
`_build_attack(0.0, False, 0.0, (0, 0), True, attacker, defender, move)`. -/
def PokemonDamageCalculator.return_miss_attack
    (_ : PokemonDamageCalculator) (attacker defender : Pokemon)
    (move : Move) : Attack :=
  ⟨(0, 0), 0, true, false, 0, defender, attacker, move⟩

/-- Result tuple of `compute_base_damage`:
`(base_damage, effectiveness, random_factor, damage_range)`. -/
structure BaseDamage where
  base_damage : ℚ
  effectiveness : ℚ
  random_factor : ℚ
  damage_range : ℚ × ℚ
deriving DecidableEq

/-- Attack-stat selection of `compute_base_damage` (`damage.py` lines
213-218): physical moves read `attack`, special moves `attack_spe`; a
critical hit reads the base stats instead of the current stats. -/
def attackStat (attacker : Pokemon) (move : Move) (is_crit : Bool) : ℚ :=
  if move.damage_class = "physical" then
    (if is_crit then attacker.base_stats.attack else attacker.current_stats.attack)
  else
    (if is_crit then attacker.base_stats.attack_spe else attacker.current_stats.attack_spe)

/-- Defense-stat selection of `compute_base_damage`, mirror of
`attackStat` on the defender side. -/
def defenseStat (defender : Pokemon) (move : Move) (is_crit : Bool) : ℚ :=
  if move.damage_class = "physical" then
    (if is_crit then defender.base_stats.defense else defender.current_stats.defense)
  else
    (if is_crit then defender.base_stats.defense_spe else defender.current_stats.defense_spe)

/-- The base-damage formula of `compute_base_damage` (`damage.py` lines
220-223) including the 1.5 same-type bonus. -/
def rawDamage (attacker defender : Pokemon) (move : Move) (is_crit : Bool) : ℚ :=
  let bd0 : ℚ :=
    (((2 * (attacker.level : ℚ) / 5 + 2) * (move.damage : ℚ)
        * (attackStat attacker move is_crit / defenseStat defender move is_crit)) / 50) + 2
  if move.element = attacker.type1 ∨ attacker.type2 = some move.element
  then bd0 * (3/2) else bd0

/-- The combined effectiveness of `compute_base_damage` (`damage.py`
lines 225-227): the chart entry against the first type, multiplied by the
entry against the second type when the defender has a truthy one. -/
def PokemonDamageCalculator.total_effectiveness (c : PokemonDamageCalculator)
    (move : Move) (defender : Pokemon) : ℚ :=
  let e0 : ℚ := c.get_effectiveness move.element defender.type1
  match defender.type2 with
  | some t2 => if t2 = "" then e0 else e0 * c.get_effectiveness move.element t2
  | none => e0

/-- Embedding of `PokemonDamageCalculator.compute_base_damage`
(`damage.py` lines 199-234); `dmgRoll` feeds the random multiplier. -/
def PokemonDamageCalculator.compute_base_damage (c : PokemonDamageCalculator)
    (attacker defender : Pokemon) (move : Move) (is_crit : Bool)
    (random_multiplier : Bool) (dmgRoll : ℚ) : BaseDamage where
  base_damage := rawDamage attacker defender move is_crit
  effectiveness := c.total_effectiveness move defender
  random_factor := get_random_damage_multiplier dmgRoll random_multiplier
  damage_range := display_damage_range (rawDamage attacker defender move is_crit)
    (c.total_effectiveness move defender)

/-- Embedding of `PokemonDamageCalculator.compute_theoretical_attack`
(`damage.py` lines 236-266): if the minimum of the damage range reaches
the current health of the defender the effective damage is that health,
otherwise the `-1` sentinel; never missed, no mutation, copies stored. -/
def PokemonDamageCalculator.compute_theoretical_attack
    (c : PokemonDamageCalculator) (attacker defender : Pokemon) (move : Move)
    (is_crit : Bool) (random_multiplier : Bool) (dmgRoll : ℚ) : Attack :=
  let b := c.compute_base_damage attacker defender move is_crit random_multiplier dmgRoll
  let effective_damage : ℚ :=
    if defender.current_stats.health ≤ b.damage_range.1
    then defender.current_stats.health else -1
  ⟨b.damage_range, effective_damage, false, is_crit, b.effectiveness,
    defender, attacker, move⟩

/-- The three random draws a real attack consumes: the accuracy roll
(`random.uniform(0,100)`), the crit roll (`random.random()`) and the
damage-variance choice (an element of `weighted_values`). -/
structure Roll where
  hit : ℚ
  crit : ℚ
  dmg : ℚ
deriving DecidableEq

/-- Embedding of `PokemonDamageCalculator.calculate_damage`
(`damage.py` lines 268-292): miss on `pp <= 0`, miss on a failed accuracy
roll, else crit determination, base damage, the crit 1.5 multiplier and
`int(base * effectiveness * random_factor)` as effective damage. -/
def PokemonDamageCalculator.calculate_damage (c : PokemonDamageCalculator)
    (attacker defender : Pokemon) (move : Move) (random_multiplier : Bool)
    (roll : Roll) : Attack :=
  if move.pp ≤ 0 then c.return_miss_attack attacker defender move
  else if ¬ move_hit roll.hit move then c.return_miss_attack attacker defender move
  else
    let is_crit := is_crit_hit roll.crit attacker
    let b := c.compute_base_damage attacker defender move is_crit random_multiplier roll.dmg
    let bd := if is_crit then b.base_damage * (3/2) else b.base_damage
    ⟨b.damage_range, (pyInt (bd * b.effectiveness * b.random_factor) : ℚ),
      false, is_crit, b.effectiveness, defender, attacker, move⟩

/-- The PP-decrement loop of `resolve_interaction` (`damage.py` lines
314-322): walk `attacker.moves`, decrement the PP of the first move whose
name matches (clamped at 0) and return it as the used move; the for-else
branch returns the passed move unchanged when no name matches. -/
def decrementFirst : List Move → Move → List Move × Move
  | [], mv => ([], mv)
  | m :: ms, mv =>
    if m.name = mv.name then
      let m2 : Move := { m with pp := max 0 (m.pp - 1) }
      (m2 :: ms, m2)
    else
      let r := decrementFirst ms mv
      (m :: r.1, r.2)

/-- Embedding of `PokemonDamageCalculator.resolve_interaction`
(`damage.py` lines 294-333) with explicit state passing: returns the
post-call attacker, the post-call defender and the returned `Attack`.
The PP decrement is unconditional (it sits outside the missed check);
the damage application happens only when the attack did not miss. -/
def PokemonDamageCalculator.resolve_interaction (c : PokemonDamageCalculator)
    (attacker defender : Pokemon) (move : Move) (random_multiplier : Bool)
    (roll : Roll) : Pokemon × Pokemon × Attack :=
  let damage_result := c.calculate_damage attacker defender move random_multiplier roll
  let defender2 :=
    if ¬ damage_result.missed
    then defender.take_damage damage_result.effective_damage
    else defender
  let dec := decrementFirst attacker.moves move
  let attacker2 : Pokemon := { attacker with moves := dec.1 }
  (attacker2, defender2,
    ⟨damage_result.damage_range, damage_result.effective_damage,
      damage_result.missed, damage_result.crit, damage_result.effectiveness,
      defender2, attacker2, dec.2⟩)

/-! ## `src/pokemonml/right_move_machine.py` -/

/-- Python `max(xs, key=f)` on the non-empty list `x :: xs`: scan left to
right, replace the candidate only on a strictly larger key, so the first
maximal element wins. -/
def pyMax {α : Type} (f : α → ℚ) (x : α) (xs : List α) : α :=
  xs.foldl (fun b a => if f b < f a then a else b) x

/-- Embedding of `RightMoveMachine.find_best_move`
(`right_move_machine.py` lines 29-69).  `rolls i` is the damage-variance
draw consumed while evaluating move number `i` (the theoretical result
provably does not depend on it).  The source raises `ValueError` on an
empty move list; then it keeps the guaranteed-KO attacks
(`effective_damage != -1`) and takes the Python `max` by accuracy over
them, or by minimum damage over all theoretical attacks when there is no
guaranteed KO. -/
def find_best_move (c : PokemonDamageCalculator) (rolls : ℕ → ℚ)
    (attacker defender : Pokemon) : Except String Attack :=
  let theoretical_attacks := attacker.moves.enum.map
    (fun im => c.compute_theoretical_attack attacker defender im.2 false
      c.verbose (rolls im.1))
  let guaranteed_moves := theoretical_attacks.filter
    (fun atk => decide (atk.effective_damage ≠ -1))
  match theoretical_attacks, guaranteed_moves with
  | [], _ => .error (attacker.name ++ " has no available moves.")
  | t :: ts, [] => .ok (pyMax (fun atk => atk.damage_range.1) t ts)
  | _ :: _, g :: gs => .ok (pyMax (fun atk => atk.move.accuracy) g gs)

/-! ## `src/pokemonml/battle_simulator.py` -/

/-- Python lexicographic `>=` on the 3-tuples
`(priority, speed, random draw)` used to order the two sides. -/
def tupleGe3 (s t : ℤ × ℚ × ℚ) : Bool :=
  if t.1 < s.1 then true
  else if s.1 < t.1 then false
  else if t.2.1 < s.2.1 then true
  else if s.2.1 < t.2.1 then false
  else decide (t.2.2 ≤ s.2.2)

/-- One half-turn record `(attacker, defender, move, result)`; the
embedding records the two combatant states the half-turn was resolved
against (the Python tuple holds the live objects themselves). -/
structure HalfTurn where
  attacker : Pokemon
  defender : Pokemon
  move : Move
  result : Attack
deriving DecidableEq

/-- Embedding of `BattleSimulator.full_turn_interaction`
(`battle_simulator.py` lines 13-48): both best moves are selected up
front against the pristine combatants, the order is decided by the
lexicographic score `(priority, speed, random)`, the first interaction is
resolved, and if the defender is still standing the roles are swapped and
the other pre-selected move is resolved.  `r1`, `r2` are the two
`random.random()` tie-break draws; `rolls1`, `rolls2` feed the two move
selections; `roll1`, `roll2` feed the two interactions. -/
def full_turn_interaction (c : PokemonDamageCalculator)
    (rolls1 rolls2 : ℕ → ℚ) (r1 r2 : ℚ) (roll1 roll2 : Roll)
    (pokemon1 pokemon2 : Pokemon) (random_multiplier : Bool) :
    Except String (HalfTurn × Option HalfTurn) :=
  match find_best_move c rolls1 pokemon1 pokemon2 with
  | .error e => .error e
  | .ok b1 =>
    match find_best_move c rolls2 pokemon2 pokemon1 with
    | .error e => .error e
    | .ok b2 =>
      let best1 := b1.move
      let best2 := b2.move
      let firstIsP1 := tupleGe3
        (best1.priority, pokemon1.current_stats.speed, r1)
        (best2.priority, pokemon2.current_stats.speed, r2)
      let atk := if firstIsP1 then pokemon1 else pokemon2
      let defn := if firstIsP1 then pokemon2 else pokemon1
      let mv := if firstIsP1 then best1 else best2
      let res1 := c.resolve_interaction atk defn mv random_multiplier roll1
      let first : HalfTurn := ⟨res1.1, res1.2.1, mv, res1.2.2⟩
      if 0 < res1.2.1.current_stats.health then
        let p1post := if firstIsP1 then res1.1 else res1.2.1
        let p2post := if firstIsP1 then res1.2.1 else res1.1
        let atk2 := if firstIsP1 then p2post else p1post
        let mv2 := if firstIsP1 then best2 else best1
        let defn2 := if firstIsP1 then p1post else p2post
        let res2 := c.resolve_interaction atk2 defn2 mv2 random_multiplier roll2
        .ok (first, some ⟨atk2, defn2, mv2, res2.2.2⟩)
      else
        .ok (first, none)

/-! ## `src/GUI/appbis.py`, the turn body of `simulate_battle` -/

/-- One attack block of the GUI battle loop (`appbis.py` lines 311-341 and
their mirror 350-380): pick the best move, resolve the interaction (which
already applies the damage to the defender), then apply
`take_damage(attack_result.effective_damage)` to the defender a second
time when the attack did not miss. -/
def gui_attack_block (c : PokemonDamageCalculator) (selRolls : ℕ → ℚ)
    (roll : Roll) (attacker defender : Pokemon) :
    Except String (Pokemon × Pokemon × Attack) :=
  match find_best_move c selRolls attacker defender with
  | .error e => .error e
  | .ok best_move =>
    let r := c.resolve_interaction attacker defender best_move.move true roll
    let defender2 :=
      if ¬ r.2.2.missed then r.2.1.take_damage r.2.2.effective_damage
      else r.2.1
    .ok (r.1, defender2, r.2.2)

/-- The auto-switch block of the GUI battle loop (`appbis.py` lines
388-404): when the active member fainted and a switch is available, switch
to the first available index. -/
def gui_auto_switch (t : Team) : Except String Team :=
  match t.active_pokemon with
  | none => .error "IndexError"
  | some p =>
    if p.is_fainted then
      match t.get_available_switches with
      | [] => .ok t
      | i :: _ =>
        match t.switch_to i with
        | .ok t2 => .ok t2
        | .error e => .error e
    else .ok t

/-- Outcome of one iteration of the `simulate_battle` while loop. -/
structure TurnOutcome where
  team1 : Team
  team2 : Team
  first_is_team1 : Bool
deriving DecidableEq

/-- Writes the mutated active member back into the roster list (Python
mutates the listed object in place). -/
def Team.set_active (t : Team) (p : Pokemon) : Team :=
  { t with pokemons := t.pokemons.set t.active_index p }

/-- Embedding of one iteration of the `simulate_battle` while loop
(`appbis.py` lines 296-404, display and logging dropped): when neither
team is defeated, the side whose active member satisfies
`speed1 >= speed2` attacks first (there is no random tie-break draw in
the source), each half-turn is gated on the attacker not being fainted,
and finally both teams run the auto-switch block. -/
def battle_turn (c : PokemonDamageCalculator) (selRolls1 selRolls2 : ℕ → ℚ)
    (roll1 roll2 : Roll) (team1 team2 : Team) : Except String TurnOutcome :=
  match team1.active_pokemon, team2.active_pokemon with
  | some a1, some a2 =>
    let firstIsTeam1 := decide (a2.current_stats.speed ≤ a1.current_stats.speed)
    if team1.is_defeated || team2.is_defeated then
      .ok ⟨team1, team2, firstIsTeam1⟩
    else
      let fa := if firstIsTeam1 then a1 else a2
      let sa := if firstIsTeam1 then a2 else a1
      let step1 : Except String (Pokemon × Pokemon) :=
        if ¬ fa.is_fainted then
          match gui_attack_block c selRolls1 roll1 fa sa with
          | .error e => .error e
          | .ok r => .ok (r.1, r.2.1)
        else .ok (fa, sa)
      match step1 with
      | .error e => .error e
      | .ok s1 =>
        let step2 : Except String (Pokemon × Pokemon) :=
          if ¬ s1.2.is_fainted ∧ ¬ s1.1.is_fainted then
            match gui_attack_block c selRolls2 roll2 s1.2 s1.1 with
            | .error e => .error e
            | .ok r => .ok (r.2.1, r.1)
          else .ok s1
        match step2 with
        | .error e => .error e
        | .ok s2 =>
          let t1a := team1.set_active (if firstIsTeam1 then s2.1 else s2.2)
          let t2a := team2.set_active (if firstIsTeam1 then s2.2 else s2.1)
          match gui_auto_switch t1a with
          | .error e => .error e
          | .ok t1b =>
            match gui_auto_switch t2a with
            | .error e => .error e
            | .ok t2b => .ok ⟨t1b, t2b, firstIsTeam1⟩
  | _, _ => .error "IndexError"

/-! ## Derived predicates used by the statements -/

/-- The health invariant of the data model:
`0 ≤ current_health ≤ base_health`. -/
def HealthInv (p : Pokemon) : Prop :=
  0 ≤ p.current_stats.health ∧ p.current_stats.health ≤ p.base_stats.health

/-- Nonnegativity of the four combat stats a damage computation reads. -/
def NonnegStats (s : Stats) : Prop :=
  0 ≤ s.attack ∧ 0 ≤ s.defense ∧ 0 ≤ s.attack_spe ∧ 0 ≤ s.defense_spe

/-- Every effectiveness multiplier of the chart is nonnegative (true of
the game charts, whose entries are 0, 0.5, 1 or 2). -/
def NonnegChart (c : PokemonDamageCalculator) : Prop :=
  ∀ a d, 0 ≤ c.type_chart a d

/-- A sequence of `resolve_interaction` calls against the same defender,
folding the mutated defender through the list of
(attacker, move, randomness flag, rolls) inputs. -/
def apply_attacks (c : PokemonDamageCalculator) (p : Pokemon)
    (l : List (Pokemon × Move × Bool × Roll)) : Pokemon :=
  l.foldl (fun d x => (c.resolve_interaction x.1 d x.2.1 x.2.2.1 x.2.2.2).2.1) p

/-- Per-call hypotheses for `apply_attacks`: nonnegative attacker stats,
nonnegative move power, nonnegative damage-variance draw. -/
def SaneAttack (x : Pokemon × Move × Bool × Roll) : Prop :=
  NonnegStats x.1.current_stats ∧ NonnegStats x.1.base_stats ∧
    0 ≤ x.2.1.damage ∧ 0 ≤ x.2.2.2.dmg

/-- Conclusion of the theoretical-attack specification (claim about
`compute_theoretical_attack`): the effective damage equals the current
health of the defender exactly when the minimum of the damage range
reaches it, equals the `-1` sentinel exactly otherwise, and the stored
snapshots are the unmutated inputs. -/
def TheoreticalOk (c : PokemonDamageCalculator) (attacker defender : Pokemon)
    (move : Move) (is_crit rm : Bool) (roll : ℚ) : Prop :=
  let atk := c.compute_theoretical_attack attacker defender move is_crit rm roll
  (atk.effective_damage = defender.current_stats.health ↔
      defender.current_stats.health ≤ atk.damage_range.1)
  ∧ (atk.effective_damage = -1 ↔ atk.damage_range.1 < defender.current_stats.health)
  ∧ atk.attacker = attacker ∧ atk.defender = defender ∧ atk.move = move
  ∧ atk.missed = false ∧ atk.crit = is_crit

/-- Conclusion of the amended `resolve_interaction` specification: the
result misses exactly on an empty move or a failed accuracy roll; a miss
leaves the defender untouched; a hit lowers the defender health by the
effective damage clamped at 0 and changes nothing else of the defender;
and in BOTH cases the first attacker move carrying the used name has its
PP replaced by `max 0 (pp - 1)` while every other part of the attacker is
unchanged. -/
def ResolveOk (c : PokemonDamageCalculator) (attacker defender : Pokemon)
    (move : Move) (rm : Bool) (roll : Roll) : Prop :=
  let r := c.resolve_interaction attacker defender move rm roll
  (r.2.2.missed = true ↔ (move.pp ≤ 0 ∨ move.accuracy ≤ roll.hit))
  ∧ (r.2.2.missed = true → r.2.1 = defender)
  ∧ (r.2.2.missed = false →
      r.2.1 = { defender with current_stats :=
        { defender.current_stats with
            health := max 0 (defender.current_stats.health - r.2.2.effective_damage) } })
  ∧ r.1.name = attacker.name ∧ r.1.base_stats = attacker.base_stats
  ∧ r.1.current_stats = attacker.current_stats ∧ r.1.type1 = attacker.type1
  ∧ r.1.type2 = attacker.type2 ∧ r.1.level = attacker.level
  ∧ ((∀ x ∈ attacker.moves, x.name ≠ move.name) → r.1.moves = attacker.moves)
  ∧ (∀ l₁ x l₂, attacker.moves = l₁ ++ x :: l₂ →
      (∀ y ∈ l₁, y.name ≠ move.name) → x.name = move.name →
      r.1.moves = l₁ ++ { x with pp := max 0 (x.pp - 1) } :: l₂)

/-- Conclusion of the best-move specification.  `ta` is the list of
theoretical attacks in original move order, `guaranteed` its sub-list of
Determined results (`effective_damage ≠ -1`, which under
`0 ≤ defender health` is exactly "damage-range minimum reaches the
defender health", see the conjunct over `ta`).  The selection returns a
member of the relevant list that strictly beats every earlier element and
weakly beats every later one on the selection key — the first maximum,
i.e. ties go to the earliest move in original order.  The embedding is a
pure function, so no combatant or move is mutated. -/
def BestMoveOk (c : PokemonDamageCalculator) (rolls : ℕ → ℚ)
    (attacker defender : Pokemon) : Prop :=
  let ta := attacker.moves.enum.map
    (fun im => c.compute_theoretical_attack attacker defender im.2 false
      c.verbose (rolls im.1))
  let guaranteed := ta.filter (fun atk => decide (atk.effective_damage ≠ -1))
  (∀ b ∈ ta, (b.effective_damage ≠ -1 ↔
      defender.current_stats.health ≤ b.damage_range.1)) ∧
  ∃ best, find_best_move c rolls attacker defender = .ok best ∧
    ((guaranteed ≠ [] ∧ ∃ l₁ l₂, guaranteed = l₁ ++ best :: l₂ ∧
        (∀ b ∈ l₁, b.move.accuracy < best.move.accuracy) ∧
        (∀ b ∈ l₂, b.move.accuracy ≤ best.move.accuracy))
     ∨ (guaranteed = [] ∧ ∃ l₁ l₂, ta = l₁ ++ best :: l₂ ∧
        (∀ b ∈ l₁, b.damage_range.1 < best.damage_range.1) ∧
        (∀ b ∈ l₂, b.damage_range.1 ≤ best.damage_range.1)))

/-- Conclusion of the `switch_to` specification at an in-range index of a
member `p`: the call fails exactly when the index is the active one or
`p` is fainted, and otherwise only the active index changes. -/
def SwitchOk (t : Team) (i : ℕ) (p : Pokemon) : Prop :=
  ((∃ e, t.switch_to i = .error e) ↔ (i = t.active_index ∨ p.is_fainted = true))
  ∧ (¬(i = t.active_index ∨ p.is_fainted = true) →
      t.switch_to i = .ok ⟨t.name, t.pokemons, i⟩)

/-! ## Concrete closed fixtures for witnesses and counterexamples -/

/-- A type chart where every matchup multiplier is 1. -/
def chartAll1 : String → String → ℚ := fun _ _ => 1

/-- A calculator over `chartAll1`, verbose off. -/
def calcTest : PokemonDamageCalculator := ⟨chartAll1, false⟩

/-- Stats block: 100 health, 50 in every other stat, neutral stages. -/
def statsTest : Stats := ⟨100, 50, 50, 50, 50, 50, 6, 6, 0⟩

/-- A plain physical move with accuracy 95 and 10 PP. -/
def tackle : Move := ⟨"Tackle", "Normal", 40, "physical", 95, 10, 0⟩

/-- A special move with accuracy 70 and 25 PP. -/
def ember : Move := ⟨"Ember", "Fire", 40, "special", 70, 25, 0⟩

/-- Attacking test combatant knowing `tackle`. -/
def pkmA : Pokemon := ⟨"A", statsTest, statsTest, "Normal", none, 50, [tackle]⟩

/-- Defending test combatant. -/
def pkmB : Pokemon := ⟨"B", statsTest, statsTest, "Normal", none, 50, [tackle]⟩

/-- Test combatant with two moves, for the selection claims. -/
def pkmC : Pokemon := ⟨"C", statsTest, statsTest, "Normal", none, 50, [tackle, ember]⟩

/-- A fainted combatant (0 current health). -/
def pkmF : Pokemon :=
  ⟨"F", statsTest, ⟨0, 50, 50, 50, 50, 50, 6, 6, 0⟩, "Normal", none, 50, [tackle]⟩

/-- A two-member team with a living benched member. -/
def teamAB : Team := ⟨"player", [pkmA, pkmB], 0⟩

/-- A team whose benched member is fainted. -/
def teamAF : Team := ⟨"player", [pkmA, pkmF], 0⟩

/-- `tackle` after one PP use. -/
def tackle9 : Move := ⟨"Tackle", "Normal", 40, "physical", 95, 9, 0⟩

/-- `statsTest` after taking 24 damage. -/
def stats76 : Stats := ⟨76, 50, 50, 50, 50, 50, 6, 6, 0⟩

/-- `pkmA` after using `tackle` once. -/
def pkmA9 : Pokemon := ⟨"A", statsTest, statsTest, "Normal", none, 50, [tackle9]⟩

/-- `pkmB` after receiving 24 damage. -/
def pkmB76 : Pokemon := ⟨"B", statsTest, stats76, "Normal", none, 50, [tackle]⟩

/-- `pkmB` after receiving 24 damage and using `tackle` once. -/
def pkmB76_9 : Pokemon := ⟨"B", statsTest, stats76, "Normal", none, 50, [tackle9]⟩

/-- `pkmA` after using `tackle` once and receiving 24 damage. -/
def pkmA9_76 : Pokemon := ⟨"A", statsTest, stats76, "Normal", none, 50, [tackle9]⟩

/-- The first half-turn of the concrete exchange of the C4 witness. -/
def h1val : HalfTurn := ⟨pkmA9, pkmB76, tackle,
  ⟨(2499/100, 147/5), 24, false, false, 1, pkmB76, pkmA9, tackle9⟩⟩

/-- The second half-turn of the concrete exchange of the C4 witness. -/
def h2val : HalfTurn := ⟨pkmB76, pkmA9, tackle,
  ⟨(2499/100, 147/5), 24, false, false, 1, pkmA9_76, pkmB76_9, tackle9⟩⟩

/-- `pkmB` after using `tackle` once. -/
def pkmB9 : Pokemon := ⟨"B", statsTest, statsTest, "Normal", none, 50, [tackle9]⟩

/-- Outcome of the concrete loop turn where both sides miss: PP spent,
health untouched, team 1 first. -/
def outVal : TurnOutcome := ⟨⟨"t1", [pkmA9], 0⟩, ⟨"t2", [pkmB9], 0⟩, true⟩

/-- `statsTest` after taking 24 damage twice. -/
def stats52 : Stats := ⟨52, 50, 50, 50, 50, 50, 6, 6, 0⟩

/-- `pkmB` after the doubled damage application of the GUI loop. -/
def pkmB52 : Pokemon := ⟨"B", statsTest, stats52, "Normal", none, 50, [tackle]⟩

/-- The attack record of the concrete GUI hit (24 effective damage). -/
def resVal : Attack := ⟨(2499/100, 147/5), 24, false, false, 1, pkmB76, pkmA9, tackle9⟩

/-! # Theorems -/

/-! ## Claim C10: the health derivation formula -/

/-- C10, counterexample: at base=0, potential=3, training=2, level=60 the
code (`calculate_hp`, which floors `training/4` with integer division
before the outer floor) returns 71, while the formula of the claim with
the exact rational quotient `training/4` under the outer floor returns
72. -/
theorem calculate_hp_exact_quotient_counterexample :
    calculate_hp 3 0 2 60 = 71 ∧ spec_health 0 3 2 60 = 72 ∧
      calculate_hp 3 0 2 60 ≠ spec_health 0 3 2 60 := by
  refine ⟨?_, ?_, ?_⟩ <;> norm_num [calculate_hp, spec_health]

/-- C10, amended: `calculate_hp` computes
`floor(((potential + 2*base + floor(training/4)) * level)/100) + level + 10`,
the inner quotient `training/4` being itself floored (Python `//`), and is
a pure deterministic function of its four integer inputs. -/
theorem calculate_hp_formula (iv base ev level : ℕ) :
    calculate_hp iv base ev level =
      ⌊(((iv : ℚ) + 2 * (base : ℚ) + ((⌊(ev : ℚ) / 4⌋ : ℤ) : ℚ)) * (level : ℚ)) / 100⌋
        + (level : ℤ) + 10 := by
  unfold calculate_hp
  have h4 : ((⌊(ev : ℚ) / 4⌋ : ℤ) : ℚ) = ((ev / 4 : ℕ) : ℚ) := by
    rw [show ((4 : ℚ)) = ((4 : ℕ) : ℚ) by norm_num, Rat.floor_natCast_div_natCast]
    push_cast
    rfl
  rw [h4]

/-! ## Claim C5: the priority argument of the `Move` constructor -/

/-- C5, bug evidence: `Move.__init__` accepts a priority argument but then
assigns the literal 0 to the field, so a move constructed with priority 1
(directly or through `from_csv_row` with a priority column) carries
priority 0, not 1. -/
theorem Move_init_priority_dropped :
    (Move.init "Quick Attack" "Normal" 40 "physical" 100 30 1).priority = 0 ∧
    (Move.from_csv_row "Quick Attack" "Normal" (some 40) "physical"
        (some 100) 30 (some 1)).priority = 0 ∧
    (Move.init "Quick Attack" "Normal" 40 "physical" 100 30 1).priority ≠ 1 := by
  exact ⟨rfl, rfl, by decide⟩

/-! ## Claim C8: `Team.switch_to` -/

/-- C8: at any in-range roster index `i` holding member `p`, `switch_to i`
fails exactly when `i` is the active index or `p` is fainted, and
otherwise returns the team with the same name and roster and the active
index set to `i`. -/
theorem switch_to_spec (t : Team) (i : ℕ) (p : Pokemon)
    (hp : t.pokemons[i]? = some p) : SwitchOk t i p := by
  unfold SwitchOk Team.switch_to
  rw [hp]
  by_cases h1 : i = t.active_index
  · simp [h1]
  · by_cases h2 : p.is_fainted
    · simp [h1, h2]
    · simp [h1, h2]

/-- C8, witness: in the team `teamAB` (active index 0, benched living
member `pkmB` at index 1) the specification holds at index 1; in
particular the switch succeeds. -/
theorem switch_to_spec_witness :
    teamAB.pokemons[1]? = some pkmB ∧ SwitchOk teamAB 1 pkmB :=
  ⟨rfl, switch_to_spec teamAB 1 pkmB rfl⟩

/-! ## Claim C9: health bounds -/

theorem pyInt_nonneg {q : ℚ} (h : 0 ≤ q) : 0 ≤ pyInt q := by
  unfold pyInt
  rw [if_neg (not_lt.mpr h)]
  exact Int.floor_nonneg.mpr h

theorem take_damage_healthinv {p : Pokemon} (h : HealthInv p) {d : ℚ}
    (hd : 0 ≤ d) : HealthInv (p.take_damage d) := by
  obtain ⟨h0, h1⟩ := h
  unfold HealthInv Pokemon.take_damage
  refine ⟨le_max_left _ _, max_le (by linarith) (by simpa using by linarith)⟩

theorem heal_healthinv {p : Pokemon} (h : HealthInv p) {a : ℚ}
    (ha : 0 ≤ a) : HealthInv (p.heal a) := by
  obtain ⟨h0, h1⟩ := h
  unfold HealthInv Pokemon.heal
  exact ⟨le_min (by linarith) (by linarith), min_le_left _ _⟩

theorem compute_base_damage_base (c : PokemonDamageCalculator)
    (a d : Pokemon) (m : Move) (ic rm : Bool) (roll : ℚ) :
    (c.compute_base_damage a d m ic rm roll).base_damage = rawDamage a d m ic := rfl

theorem compute_base_damage_eff (c : PokemonDamageCalculator)
    (a d : Pokemon) (m : Move) (ic rm : Bool) (roll : ℚ) :
    (c.compute_base_damage a d m ic rm roll).effectiveness =
      c.total_effectiveness m d := rfl

theorem compute_base_damage_rf (c : PokemonDamageCalculator)
    (a d : Pokemon) (m : Move) (ic rm : Bool) (roll : ℚ) :
    (c.compute_base_damage a d m ic rm roll).random_factor =
      get_random_damage_multiplier roll rm := rfl

theorem compute_base_damage_range (c : PokemonDamageCalculator)
    (a d : Pokemon) (m : Move) (ic rm : Bool) (roll : ℚ) :
    (c.compute_base_damage a d m ic rm roll).damage_range =
      display_damage_range (rawDamage a d m ic) (c.total_effectiveness m d) := rfl

theorem attackStat_nonneg (a : Pokemon) (m : Move) (ic : Bool)
    (h1 : NonnegStats a.current_stats) (h2 : NonnegStats a.base_stats) :
    0 ≤ attackStat a m ic := by
  obtain ⟨ha1, _, ha3, _⟩ := h1
  obtain ⟨hb1, _, hb3, _⟩ := h2
  unfold attackStat
  split_ifs <;> assumption

theorem defenseStat_nonneg (d : Pokemon) (m : Move) (ic : Bool)
    (h1 : NonnegStats d.current_stats) (h2 : NonnegStats d.base_stats) :
    0 ≤ defenseStat d m ic := by
  obtain ⟨_, ha2, _, ha4⟩ := h1
  obtain ⟨_, hb2, _, hb4⟩ := h2
  unfold defenseStat
  split_ifs <;> assumption

theorem rawDamage_nonneg (a d : Pokemon) (m : Move) (ic : Bool)
    (hA1 : NonnegStats a.current_stats) (hA2 : NonnegStats a.base_stats)
    (hD1 : NonnegStats d.current_stats) (hD2 : NonnegStats d.base_stats)
    (hm : 0 ≤ m.damage) : 0 ≤ rawDamage a d m ic := by
  have hmq : (0 : ℚ) ≤ (m.damage : ℚ) := by exact_mod_cast hm
  have hLq : (0 : ℚ) ≤ 2 * (a.level : ℚ) / 5 + 2 := by positivity
  have has := attackStat_nonneg a m ic hA1 hA2
  have hds := defenseStat_nonneg d m ic hD1 hD2
  have h0 : (0 : ℚ) ≤
      (((2 * (a.level : ℚ) / 5 + 2) * (m.damage : ℚ)
        * (attackStat a m ic / defenseStat d m ic)) / 50) + 2 :=
    add_nonneg (div_nonneg (mul_nonneg (mul_nonneg hLq hmq)
      (div_nonneg has hds)) (by norm_num)) (by norm_num)
  unfold rawDamage
  split_ifs
  · exact mul_nonneg h0 (by norm_num)
  · exact h0

theorem total_effectiveness_nonneg (c : PokemonDamageCalculator)
    (hC : NonnegChart c) (m : Move) (d : Pokemon) :
    0 ≤ c.total_effectiveness m d := by
  unfold PokemonDamageCalculator.total_effectiveness
  cases d.type2 with
  | none => exact hC _ _
  | some t2 =>
    by_cases ht : t2 = ""
    · simp only [ht, if_pos rfl]
      exact hC _ _
    · simp only [if_neg ht]
      exact mul_nonneg (hC _ _) (hC _ _)

theorem get_random_damage_multiplier_nonneg (roll : ℚ) (rm : Bool)
    (hr : 0 ≤ roll) : 0 ≤ get_random_damage_multiplier roll rm := by
  unfold get_random_damage_multiplier
  cases rm with
  | false => norm_num [weighted_values]
  | true => simpa using by positivity

theorem calculate_damage_eq_miss (c : PokemonDamageCalculator)
    (a d : Pokemon) (m : Move) (rm : Bool) (roll : Roll)
    (h : m.pp ≤ 0 ∨ ¬ move_hit roll.hit m = true) :
    c.calculate_damage a d m rm roll = c.return_miss_attack a d m := by
  unfold PokemonDamageCalculator.calculate_damage
  by_cases h1 : m.pp ≤ 0
  · rw [if_pos h1]
  · rw [if_neg h1, if_pos (h.resolve_left h1)]

theorem calculate_damage_eq_hit (c : PokemonDamageCalculator)
    (a d : Pokemon) (m : Move) (rm : Bool) (roll : Roll)
    (h1 : ¬ m.pp ≤ 0) (h2 : move_hit roll.hit m = true) :
    c.calculate_damage a d m rm roll =
      ⟨display_damage_range (rawDamage a d m (is_crit_hit roll.crit a))
          (c.total_effectiveness m d),
        ((pyInt ((if is_crit_hit roll.crit a = true
            then rawDamage a d m (is_crit_hit roll.crit a) * (3/2)
            else rawDamage a d m (is_crit_hit roll.crit a))
          * c.total_effectiveness m d
          * get_random_damage_multiplier roll.dmg rm) : ℤ) : ℚ),
        false, is_crit_hit roll.crit a, c.total_effectiveness m d, d, a, m⟩ := by
  unfold PokemonDamageCalculator.calculate_damage
  rw [if_neg h1, if_neg (not_not_intro h2)]
  rfl

theorem calculate_damage_nonneg (c : PokemonDamageCalculator)
    (hC : NonnegChart c) (a d : Pokemon) (m : Move) (rm : Bool) (roll : Roll)
    (hA1 : NonnegStats a.current_stats) (hA2 : NonnegStats a.base_stats)
    (hD1 : NonnegStats d.current_stats) (hD2 : NonnegStats d.base_stats)
    (hm : 0 ≤ m.damage) (hr : 0 ≤ roll.dmg) :
    0 ≤ (c.calculate_damage a d m rm roll).effective_damage := by
  by_cases h1 : m.pp ≤ 0
  · rw [calculate_damage_eq_miss c a d m rm roll (Or.inl h1)]
    exact le_refl 0
  · by_cases h2 : move_hit roll.hit m = true
    · rw [calculate_damage_eq_hit c a d m rm roll h1 h2]
      dsimp only
      have hb := rawDamage_nonneg a d m (is_crit_hit roll.crit a) hA1 hA2 hD1 hD2 hm
      have he := total_effectiveness_nonneg c hC m d
      have hf := get_random_damage_multiplier_nonneg roll.dmg rm hr
      have hbd : 0 ≤ (if is_crit_hit roll.crit a = true
          then rawDamage a d m (is_crit_hit roll.crit a) * (3/2)
          else rawDamage a d m (is_crit_hit roll.crit a)) := by
        split_ifs
        · exact mul_nonneg hb (by norm_num)
        · exact hb
      exact_mod_cast pyInt_nonneg (mul_nonneg (mul_nonneg hbd he) hf)
    · rw [calculate_damage_eq_miss c a d m rm roll (Or.inr h2)]
      exact le_refl 0

theorem resolve_defender_cases (c : PokemonDamageCalculator)
    (a d : Pokemon) (m : Move) (rm : Bool) (roll : Roll) :
    (c.resolve_interaction a d m rm roll).2.1 = d ∨
    (c.resolve_interaction a d m rm roll).2.1 =
      d.take_damage (c.calculate_damage a d m rm roll).effective_damage := by
  unfold PokemonDamageCalculator.resolve_interaction
  dsimp only
  by_cases h : (c.calculate_damage a d m rm roll).missed = true
  · left
    rw [if_neg (not_not_intro h)]
  · right
    rw [if_pos h]

theorem take_damage_stats (p : Pokemon) (d : ℚ) :
    (p.take_damage d).base_stats = p.base_stats ∧
    (p.take_damage d).current_stats.attack = p.current_stats.attack ∧
    (p.take_damage d).current_stats.defense = p.current_stats.defense ∧
    (p.take_damage d).current_stats.attack_spe = p.current_stats.attack_spe ∧
    (p.take_damage d).current_stats.defense_spe = p.current_stats.defense_spe := by
  unfold Pokemon.take_damage
  exact ⟨rfl, rfl, rfl, rfl, rfl⟩

theorem apply_attacks_healthinv (c : PokemonDamageCalculator)
    (hC : NonnegChart c) :
    ∀ (l : List (Pokemon × Move × Bool × Roll)) (p : Pokemon),
      HealthInv p → NonnegStats p.current_stats → NonnegStats p.base_stats →
      (∀ x ∈ l, SaneAttack x) → HealthInv (apply_attacks c p l) := by
  intro l
  induction l with
  | nil => intro p hp _ _ _; exact hp
  | cons x xs ih =>
    intro p hp hcu hba hl
    obtain ⟨hx1, hx2, hx3, hx4⟩ := hl x (List.mem_cons_self x xs)
    have hstep : HealthInv ((c.resolve_interaction x.1 p x.2.1 x.2.2.1 x.2.2.2).2.1) ∧
        NonnegStats ((c.resolve_interaction x.1 p x.2.1 x.2.2.1 x.2.2.2).2.1).current_stats ∧
        NonnegStats ((c.resolve_interaction x.1 p x.2.1 x.2.2.1 x.2.2.2).2.1).base_stats := by
      rcases resolve_defender_cases c x.1 p x.2.1 x.2.2.1 x.2.2.2 with hcase | hcase
      · rw [hcase]; exact ⟨hp, hcu, hba⟩
      · rw [hcase]
        have hdmg := calculate_damage_nonneg c hC x.1 p x.2.1 x.2.2.1 x.2.2.2
          hx1 hx2 hcu hba hx3 hx4
        obtain ⟨hs0, hs1, hs2, hs3, hs4⟩ :=
          take_damage_stats p ((c.calculate_damage x.1 p x.2.1 x.2.2.1 x.2.2.2).effective_damage)
        refine ⟨take_damage_healthinv hp hdmg, ?_, ?_⟩
        · exact ⟨hs1 ▸ hcu.1, hs2 ▸ hcu.2.1, hs3 ▸ hcu.2.2.1, hs4 ▸ hcu.2.2.2⟩
        · exact hs0 ▸ hba
    have : apply_attacks c p (x :: xs) =
        apply_attacks c ((c.resolve_interaction x.1 p x.2.1 x.2.2.1 x.2.2.2).2.1) xs := rfl
    rw [this]
    exact ih _ hstep.1 hstep.2.1 hstep.2.2
      (fun y hy => hl y (List.mem_cons_of_mem x hy))

/-- C9: from `0 ≤ current_health ≤ base_health`, the bounds still hold
after `take_damage d` for any `d ≥ 0`, after `heal a` for any `a ≥ 0`,
and after any sequence of `resolve_interaction` calls whose chart, stats,
move power and damage draws are nonnegative: `take_damage` clamps at 0
and `heal` never exceeds the base health. -/
theorem health_bounds_preserved (p : Pokemon) (hp : HealthInv p) :
    (∀ d : ℚ, 0 ≤ d → HealthInv (p.take_damage d)) ∧
    (∀ a : ℚ, 0 ≤ a → HealthInv (p.heal a)) ∧
    (∀ (c : PokemonDamageCalculator) (l : List (Pokemon × Move × Bool × Roll)),
      NonnegChart c → NonnegStats p.current_stats → NonnegStats p.base_stats →
      (∀ x ∈ l, SaneAttack x) → HealthInv (apply_attacks c p l)) :=
  ⟨fun _ hd => take_damage_healthinv hp hd,
   fun _ ha => heal_healthinv hp ha,
   fun c l hC h1 h2 hl => apply_attacks_healthinv c hC l p hp h1 h2 hl⟩

/-- C9, witness: the bounds hold for the concrete combatant `pkmB`
(health 100 of 100) after damage, healing, and a concrete two-attack
sequence. -/
theorem health_bounds_preserved_witness :
    HealthInv pkmB ∧
    ((∀ d : ℚ, 0 ≤ d → HealthInv (pkmB.take_damage d)) ∧
     (∀ a : ℚ, 0 ≤ a → HealthInv (pkmB.heal a)) ∧
     (∀ (c : PokemonDamageCalculator) (l : List (Pokemon × Move × Bool × Roll)),
       NonnegChart c → NonnegStats pkmB.current_stats → NonnegStats pkmB.base_stats →
       (∀ x ∈ l, SaneAttack x) → HealthInv (apply_attacks c pkmB l))) :=
  ⟨by constructor <;> norm_num [HealthInv, pkmB, statsTest],
   health_bounds_preserved pkmB
     (by constructor <;> norm_num [HealthInv, pkmB, statsTest])⟩

/-! ## Claim C3: `compute_theoretical_attack` -/

theorem compute_theoretical_attack_eq (c : PokemonDamageCalculator)
    (a d : Pokemon) (m : Move) (ic rm : Bool) (roll : ℚ) :
    c.compute_theoretical_attack a d m ic rm roll =
      ⟨display_damage_range (rawDamage a d m ic) (c.total_effectiveness m d),
        (if d.current_stats.health ≤
            (display_damage_range (rawDamage a d m ic) (c.total_effectiveness m d)).1
          then d.current_stats.health else -1),
        false, ic, c.total_effectiveness m d, d, a, m⟩ := rfl

/-- C3: the theoretical attack returns effective damage equal to the
current health of the defender exactly when the minimum of the damage
range reaches that health, returns the `-1` Undetermined sentinel exactly
otherwise, and stores the unmutated inputs as its snapshots. -/
theorem compute_theoretical_attack_spec (c : PokemonDamageCalculator)
    (a d : Pokemon) (m : Move) (ic rm : Bool) (roll : ℚ)
    (h : 0 ≤ d.current_stats.health) : TheoreticalOk c a d m ic rm roll := by
  unfold TheoreticalOk
  rw [compute_theoretical_attack_eq]
  dsimp only
  by_cases hk : d.current_stats.health ≤
      (display_damage_range (rawDamage a d m ic) (c.total_effectiveness m d)).1
  · rw [if_pos hk]
    refine ⟨⟨fun _ => hk, fun _ => rfl⟩, ⟨?_, ?_⟩, rfl, rfl, rfl, rfl, rfl⟩
    · intro hh
      rw [hh] at h
      norm_num at h
    · intro hlt
      exact absurd hlt (not_lt.mpr hk)
  · rw [if_neg hk]
    refine ⟨⟨?_, ?_⟩, ⟨fun _ => not_le.mp hk, fun _ => rfl⟩, rfl, rfl, rfl, rfl, rfl⟩
    · intro hh
      rw [← hh] at h
      norm_num at h
    · intro hle
      exact absurd hle hk

/-- C3, witness: the specification holds at the concrete combatants
`pkmA`, `pkmB` and the move `tackle` (an Undetermined case: minimum
damage 24.99 is below the 100 health of the defender). -/
theorem compute_theoretical_attack_spec_witness :
    0 ≤ pkmB.current_stats.health ∧
      TheoreticalOk calcTest pkmA pkmB tackle false false 85 :=
  ⟨by norm_num [pkmB, statsTest],
   compute_theoretical_attack_spec calcTest pkmA pkmB tackle false false 85
     (by norm_num [pkmB, statsTest])⟩

/-! ## Claim C1: `resolve_interaction` -/

theorem decrementFirst_no_match (ms : List Move) (mv : Move)
    (h : ∀ x ∈ ms, x.name ≠ mv.name) : decrementFirst ms mv = (ms, mv) := by
  induction ms with
  | nil => rfl
  | cons m ms ih =>
    simp only [decrementFirst, if_neg (h m (List.mem_cons_self m ms)),
      ih (fun x hx => h x (List.mem_cons_of_mem m hx))]

theorem decrementFirst_match (l₁ : List Move) (x : Move) (l₂ : List Move)
    (mv : Move) (hpre : ∀ y ∈ l₁, y.name ≠ mv.name) (hx : x.name = mv.name) :
    decrementFirst (l₁ ++ x :: l₂) mv =
      (l₁ ++ { x with pp := max 0 (x.pp - 1) } :: l₂,
       { x with pp := max 0 (x.pp - 1) }) := by
  induction l₁ with
  | nil =>
    simp only [List.nil_append, decrementFirst, if_pos hx]
  | cons m ms ih =>
    simp only [List.cons_append, decrementFirst, List.append_eq,
      if_neg (hpre m (List.mem_cons_self m ms)),
      ih (fun y hy => hpre y (List.mem_cons_of_mem m hy))]

theorem resolve_interaction_eq (c : PokemonDamageCalculator)
    (a d : Pokemon) (m : Move) (rm : Bool) (roll : Roll) :
    c.resolve_interaction a d m rm roll =
      ({ a with moves := (decrementFirst a.moves m).1 },
       (if ¬ (c.calculate_damage a d m rm roll).missed = true
        then d.take_damage (c.calculate_damage a d m rm roll).effective_damage
        else d),
       ⟨(c.calculate_damage a d m rm roll).damage_range,
        (c.calculate_damage a d m rm roll).effective_damage,
        (c.calculate_damage a d m rm roll).missed,
        (c.calculate_damage a d m rm roll).crit,
        (c.calculate_damage a d m rm roll).effectiveness,
        (if ¬ (c.calculate_damage a d m rm roll).missed = true
         then d.take_damage (c.calculate_damage a d m rm roll).effective_damage
         else d),
        { a with moves := (decrementFirst a.moves m).1 },
        (decrementFirst a.moves m).2⟩) := rfl

theorem calculate_damage_missed_iff (c : PokemonDamageCalculator)
    (a d : Pokemon) (m : Move) (rm : Bool) (roll : Roll) :
    (c.calculate_damage a d m rm roll).missed = true ↔
      (m.pp ≤ 0 ∨ m.accuracy ≤ roll.hit) := by
  by_cases h1 : m.pp ≤ 0
  · rw [calculate_damage_eq_miss c a d m rm roll (Or.inl h1)]
    simp [PokemonDamageCalculator.return_miss_attack, h1]
  · by_cases h2 : move_hit roll.hit m = true
    · rw [calculate_damage_eq_hit c a d m rm roll h1 h2]
      have hacc : ¬ m.accuracy ≤ roll.hit := by
        simpa [move_hit, not_le] using h2
      simp [h1, hacc]
    · rw [calculate_damage_eq_miss c a d m rm roll (Or.inr h2)]
      have hacc : m.accuracy ≤ roll.hit := by
        simpa [move_hit, not_lt] using h2
      simp [PokemonDamageCalculator.return_miss_attack, hacc]

/-- C1, amended: `resolve_interaction` misses exactly on an empty move or
a failed accuracy roll; on a miss the defender is untouched; on a hit the
defender health drops by the effective damage clamped at 0 and nothing
else of the defender changes; and in both cases the first move of the
attacker carrying the used name has its PP replaced by `max 0 (pp - 1)`
(so an accuracy miss still consumes one PP), everything else of the
attacker unchanged. -/
theorem resolve_interaction_amended (c : PokemonDamageCalculator)
    (a d : Pokemon) (m : Move) (rm : Bool) (roll : Roll) :
    ResolveOk c a d m rm roll := by
  unfold ResolveOk
  rw [resolve_interaction_eq]
  dsimp only
  refine ⟨calculate_damage_missed_iff c a d m rm roll, ?_, ?_,
    rfl, rfl, rfl, rfl, rfl, rfl, ?_, ?_⟩
  · intro hmiss
    rw [if_neg (not_not_intro hmiss)]
  · intro hmiss
    rw [if_pos (by simp [hmiss])]
    rfl
  · intro h
    rw [decrementFirst_no_match a.moves m h]
  · intro l₁ x l₂ heq hpre hx
    rw [heq, decrementFirst_match l₁ x l₂ m hpre hx]

/-- C1, witness for the amended statement at a concrete hit. -/
theorem resolve_interaction_amended_witness :
    ResolveOk calcTest pkmA pkmB tackle true ⟨50, 1, 85⟩ :=
  resolve_interaction_amended calcTest pkmA pkmB tackle true ⟨50, 1, 85⟩

/-- C1, counterexample: a concrete accuracy miss (roll 99 against
accuracy 95, PP 10) where the returned result is missed and yet the PP of
the move of the attacker drops from 10 to 9 — contradicting the claim
that a missed result leaves the PP of every move of the attacker
unchanged. -/
theorem resolve_interaction_miss_decrements_pp :
    (calcTest.resolve_interaction pkmA pkmB tackle true ⟨99, 1, 85⟩).2.2.missed = true ∧
    (calcTest.resolve_interaction pkmA pkmB tackle true ⟨99, 1, 85⟩).1.moves.map Move.pp = [9] ∧
    pkmA.moves.map Move.pp = [10] := by
  refine ⟨?_, ?_, ?_⟩ <;>
  norm_num [calcTest, pkmA, pkmB, tackle, statsTest, chartAll1,
    PokemonDamageCalculator.resolve_interaction, PokemonDamageCalculator.calculate_damage,
    PokemonDamageCalculator.return_miss_attack, is_crit_hit, move_hit,
    decrementFirst, Pokemon.take_damage]

/-! ## Claim C2: `find_best_move` -/

theorem pyMax_decomp {α : Type} (f : α → ℚ) :
    ∀ (xs : List α) (x : α), ∃ l₁ l₂, x :: xs = l₁ ++ pyMax f x xs :: l₂ ∧
      (∀ b ∈ l₁, f b < f (pyMax f x xs)) ∧
      (∀ b ∈ l₂, f b ≤ f (pyMax f x xs)) := by
  intro xs
  induction xs with
  | nil =>
    intro x
    exact ⟨[], [], rfl, by simp, by simp⟩
  | cons a as ih =>
    intro x
    by_cases hfa : f x < f a
    · have hh : pyMax f x (a :: as) = pyMax f a as := by
        simp [pyMax, List.foldl_cons, if_pos hfa]
      obtain ⟨l₁, l₂, hdec, h1, h2⟩ := ih a
      rw [hh]
      refine ⟨x :: l₁, l₂, by rw [List.cons_append, ← hdec], ?_, h2⟩
      have ha : f a ≤ f (pyMax f a as) := by
        cases l₁ with
        | nil =>
          have hr : a = pyMax f a as := by
            simpa using congrArg List.head? hdec
          exact le_of_eq (congrArg f hr)
        | cons b₁ l₁t =>
          have hb₁ : a = b₁ := by
            simpa using congrArg List.head? hdec
          exact le_of_lt (hb₁ ▸ h1 b₁ (List.mem_cons_self b₁ l₁t))
      intro b hb
      rcases List.mem_cons.mp hb with hb | hb
      · subst hb
        exact lt_of_lt_of_le hfa ha
      · exact h1 b hb
    · have hh : pyMax f x (a :: as) = pyMax f x as := by
        simp [pyMax, List.foldl_cons, if_neg hfa]
      obtain ⟨l₁, l₂, hdec, h1, h2⟩ := ih x
      rw [hh]
      cases l₁ with
      | nil =>
        have hx : x = pyMax f x as := by
          simpa using congrArg List.head? hdec
        have has : as = l₂ := by
          simpa using congrArg List.tail hdec
        refine ⟨[], a :: l₂, ?_, by simp, ?_⟩
        · rw [List.nil_append, ← hx, ← has]
        · intro b hb
          rcases List.mem_cons.mp hb with hb | hb
          · subst hb
            rw [← hx]
            exact not_lt.mp hfa
          · exact h2 b hb
      | cons b₁ l₁t =>
        have hb₁ : x = b₁ := by
          simpa using congrArg List.head? hdec
        have htl : as = l₁t ++ pyMax f x as :: l₂ := by
          simpa using congrArg List.tail hdec
        have hxlt : f x < f (pyMax f x as) :=
          hb₁ ▸ h1 b₁ (List.mem_cons_self b₁ l₁t)
        refine ⟨x :: a :: l₁t, l₂, ?_, ?_, h2⟩
        · rw [List.cons_append, List.cons_append, ← htl]
        · intro b hb
          rcases List.mem_cons.mp hb with hb | hb
          · subst hb
            exact hxlt
          · rcases List.mem_cons.mp hb with hb | hb
            · subst hb
              exact lt_of_le_of_lt (not_lt.mp hfa) hxlt
            · exact h1 b (List.mem_cons_of_mem b₁ hb)

theorem theoretical_eff_iff (c : PokemonDamageCalculator) (a d : Pokemon)
    (m : Move) (ic rm : Bool) (roll : ℚ) (h0 : 0 ≤ d.current_stats.health) :
    ((c.compute_theoretical_attack a d m ic rm roll).effective_damage ≠ -1 ↔
      d.current_stats.health ≤
        (c.compute_theoretical_attack a d m ic rm roll).damage_range.1) := by
  rw [compute_theoretical_attack_eq]
  dsimp only
  by_cases hk : d.current_stats.health ≤
      (display_damage_range (rawDamage a d m ic) (c.total_effectiveness m d)).1
  · rw [if_pos hk]
    refine ⟨fun _ => hk, fun _ heq => ?_⟩
    rw [heq] at h0
    norm_num at h0
  · rw [if_neg hk]
    simp [hk]

/-- C2: with a non-empty move list and the health invariant on the
defender, `find_best_move` returns the Python `max`: when some
theoretical attack is Determined (`effective_damage ≠ -1`, equivalently
its damage-range minimum reaches the defender health), the returned
attack splits the Determined sub-list into strictly-smaller-accuracy
earlier elements and weakly-smaller-accuracy later elements — the first
accuracy maximum, ties to the earliest move; otherwise it is the first
maximum of the damage-range minimum over all theoretical attacks.  The
embedding is pure: nothing is mutated. -/
theorem find_best_move_spec (c : PokemonDamageCalculator) (rolls : ℕ → ℚ)
    (attacker defender : Pokemon) (hmv : attacker.moves ≠ [])
    (h0 : 0 ≤ defender.current_stats.health) :
    BestMoveOk c rolls attacker defender := by
  obtain ⟨t, ts, hta⟩ : ∃ t ts, attacker.moves.enum.map
      (fun im => c.compute_theoretical_attack attacker defender im.2 false
        c.verbose (rolls im.1)) = t :: ts := by
    cases hmvs : attacker.moves with
    | nil => exact absurd hmvs hmv
    | cons m ms =>
      exact ⟨_, _, by rw [List.enum_cons, List.map_cons]⟩
  unfold BestMoveOk
  dsimp only
  refine ⟨?_, ?_⟩
  · intro b hb
    obtain ⟨im, _, him⟩ := List.mem_map.mp hb
    rw [← him]
    exact theoretical_eff_iff c attacker defender im.2 false c.verbose
      (rolls im.1) h0
  · unfold find_best_move
    dsimp only
    rw [hta]
    cases hg : List.filter (fun atk => decide (atk.effective_damage ≠ -1))
        (t :: ts) with
    | nil =>
      obtain ⟨l₁, l₂, hdec, h1, h2⟩ :=
        pyMax_decomp (fun atk => atk.damage_range.1) ts t
      exact ⟨pyMax (fun atk => atk.damage_range.1) t ts, rfl,
        Or.inr ⟨rfl, l₁, l₂, hdec, h1, h2⟩⟩
    | cons g gs =>
      obtain ⟨l₁, l₂, hdec, h1, h2⟩ :=
        pyMax_decomp (fun atk => atk.move.accuracy) gs g
      exact ⟨pyMax (fun atk => atk.move.accuracy) g gs, rfl,
        Or.inl ⟨List.cons_ne_nil g gs, l₁, l₂, hdec, h1, h2⟩⟩

/-- C2, witness: the specification holds at the concrete two-move
attacker `pkmC` against `pkmB`. -/
theorem find_best_move_spec_witness :
    pkmC.moves ≠ [] ∧ 0 ≤ pkmB.current_stats.health ∧
      BestMoveOk calcTest (fun _ => 85) pkmC pkmB :=
  ⟨by decide, by norm_num [pkmB, statsTest],
   find_best_move_spec calcTest (fun _ => 85) pkmC pkmB
     (by decide) (by norm_num [pkmB, statsTest])⟩

/-! ## Claim C4: the second half-turn of `full_turn_interaction` -/

/-- Key fields of an `Attack` that drive the selection in
`find_best_move`: the move copy, the effective damage and the damage
range. -/
def AttackKeyEq (x y : Attack) : Prop :=
  x.move = y.move ∧ x.effective_damage = y.effective_damage ∧
    x.damage_range = y.damage_range

theorem theoretical_congr (c : PokemonDamageCalculator) (a d : Pokemon)
    (m : Move) (rm rm' : Bool) (r r' : ℚ) (hp : ℚ) (ms : List Move) :
    AttackKeyEq
      (c.compute_theoretical_attack
        { a with current_stats := { a.current_stats with health := hp } }
        { d with moves := ms } m false rm' r')
      (c.compute_theoretical_attack a d m false rm r) :=
  ⟨rfl, rfl, rfl⟩

theorem forall₂_map_same {α β : Type} (R : β → β → Prop) (f g : α → β)
    (h : ∀ x, R (f x) (g x)) :
    ∀ l : List α, List.Forall₂ R (l.map f) (l.map g) := by
  intro l
  induction l with
  | nil => exact List.Forall₂.nil
  | cons x xs ih => exact List.Forall₂.cons (h x) ih

theorem filter_keyEq {xs ys : List Attack}
    (h : List.Forall₂ AttackKeyEq xs ys) :
    List.Forall₂ AttackKeyEq
      (xs.filter (fun atk => decide (atk.effective_damage ≠ -1)))
      (ys.filter (fun atk => decide (atk.effective_damage ≠ -1))) := by
  induction h with
  | nil => exact List.Forall₂.nil
  | cons hxy htail ih =>
    rename_i x y xs ys
    simp only [List.filter_cons]
    rw [hxy.2.1]
    by_cases hd : y.effective_damage ≠ -1
    · rw [if_pos (by simpa using hd), if_pos (by simpa using hd)]
      exact List.Forall₂.cons hxy ih
    · rw [if_neg (by simpa using hd), if_neg (by simpa using hd)]
      exact ih

theorem pyMax_keyEq (f : Attack → ℚ)
    (hf : ∀ x y, AttackKeyEq x y → f x = f y) :
    ∀ {xs ys : List Attack}, List.Forall₂ AttackKeyEq xs ys →
      ∀ {x y : Attack}, AttackKeyEq x y →
      AttackKeyEq (pyMax f x xs) (pyMax f y ys) := by
  intro xs ys h
  induction h with
  | nil => intro x y hxy; exact hxy
  | cons hab htail ih =>
    rename_i a b as bs
    intro x y hxy
    have hstep : AttackKeyEq (if f x < f a then a else x)
        (if f y < f b then b else y) := by
      rw [hf x y hxy, hf a b hab]
      split_ifs
      · exact hab
      · exact hxy
    exact ih hstep

theorem AttackKeyEq_symm {x y : Attack} (h : AttackKeyEq x y) :
    AttackKeyEq y x :=
  ⟨h.1.symm, h.2.1.symm, h.2.2.symm⟩

theorem theoretical_congr_at (c : PokemonDamageCalculator) (a d : Pokemon)
    (rolls rolls' : ℕ → ℚ) (hp : ℚ) (ms : List Move) :
    ∀ im : ℕ × Move, AttackKeyEq
      (c.compute_theoretical_attack a d im.2 false c.verbose (rolls im.1))
      (c.compute_theoretical_attack
        { a with current_stats := { a.current_stats with health := hp } }
        { d with moves := ms } im.2 false c.verbose (rolls' im.1)) :=
  fun im => AttackKeyEq_symm (theoretical_congr c a d im.2 c.verbose c.verbose
    (rolls im.1) (rolls' im.1) hp ms)

theorem find_best_move_nil (c : PokemonDamageCalculator) (rolls : ℕ → ℚ)
    (a d : Pokemon) (h : a.moves = []) :
    find_best_move c rolls a d = .error (a.name ++ " has no available moves.") := by
  unfold find_best_move
  dsimp only
  rw [h]
  rfl

theorem find_best_move_range_eq (c : PokemonDamageCalculator)
    (rolls : ℕ → ℚ) (a d : Pokemon) (t : Attack) (ts : List Attack)
    (hta : a.moves.enum.map
      (fun im => c.compute_theoretical_attack a d im.2 false c.verbose
        (rolls im.1)) = t :: ts)
    (hg : (t :: ts).filter (fun atk => decide (atk.effective_damage ≠ -1)) = []) :
    find_best_move c rolls a d = .ok (pyMax (fun atk => atk.damage_range.1) t ts) := by
  unfold find_best_move
  dsimp only
  rw [hta, hg]

theorem find_best_move_acc_eq (c : PokemonDamageCalculator)
    (rolls : ℕ → ℚ) (a d : Pokemon) (t g : Attack) (ts gs : List Attack)
    (hta : a.moves.enum.map
      (fun im => c.compute_theoretical_attack a d im.2 false c.verbose
        (rolls im.1)) = t :: ts)
    (hg : (t :: ts).filter (fun atk => decide (atk.effective_damage ≠ -1)) = g :: gs) :
    find_best_move c rolls a d = .ok (pyMax (fun atk => atk.move.accuracy) g gs) := by
  unfold find_best_move
  dsimp only
  rw [hta, hg]

theorem find_best_move_congr (c : PokemonDamageCalculator)
    (rolls rolls' : ℕ → ℚ) (a d : Pokemon) (hp : ℚ) (ms : List Move)
    (b : Attack) (h : find_best_move c rolls a d = .ok b) :
    ∃ b', find_best_move c rolls'
        { a with current_stats := { a.current_stats with health := hp } }
        { d with moves := ms } = .ok b' ∧ b'.move = b.move := by
  have hrel : List.Forall₂ AttackKeyEq
      (a.moves.enum.map
        (fun im => c.compute_theoretical_attack a d im.2 false c.verbose
          (rolls im.1)))
      (a.moves.enum.map
        (fun im => c.compute_theoretical_attack
          { a with current_stats := { a.current_stats with health := hp } }
          { d with moves := ms } im.2 false c.verbose (rolls' im.1))) :=
    forall₂_map_same AttackKeyEq _ _
      (theoretical_congr_at c a d rolls rolls' hp ms) a.moves.enum
  cases hta : a.moves.enum.map
      (fun im => c.compute_theoretical_attack a d im.2 false c.verbose
        (rolls im.1)) with
  | nil =>
    have hmv : a.moves = [] := by
      have := List.map_eq_nil_iff.mp hta
      simpa [List.enum_eq_nil] using this
    rw [find_best_move_nil c rolls a d hmv] at h
    exact absurd h (by simp)
  | cons t ts =>
    rw [hta] at hrel
    obtain ⟨t', ts', hty, htail, hta'⟩ := List.forall₂_cons_left_iff.mp hrel
    cases hg : (t :: ts).filter (fun atk => decide (atk.effective_damage ≠ -1)) with
    | nil =>
      have hb : b = pyMax (fun atk => atk.damage_range.1) t ts := by
        rw [find_best_move_range_eq c rolls a d t ts hta hg] at h
        simpa using h.symm
      have hfil := filter_keyEq (List.Forall₂.cons hty htail)
      rw [hg] at hfil
      have hg' : (t' :: ts').filter
          (fun atk => decide (atk.effective_damage ≠ -1)) = [] :=
        List.forall₂_nil_left_iff.mp hfil
      refine ⟨pyMax (fun atk => atk.damage_range.1) t' ts', ?_, ?_⟩
      · exact find_best_move_range_eq c rolls'
          { a with current_stats := { a.current_stats with health := hp } }
          { d with moves := ms } t' ts' hta' hg'
      · rw [hb]
        exact (pyMax_keyEq (fun atk => atk.damage_range.1)
          (fun x y hxy => congrArg Prod.fst hxy.2.2) htail hty).1.symm
    | cons g gs =>
      have hb : b = pyMax (fun atk => atk.move.accuracy) g gs := by
        rw [find_best_move_acc_eq c rolls a d t g ts gs hta hg] at h
        simpa using h.symm
      have hfil := filter_keyEq (List.Forall₂.cons hty htail)
      rw [hg] at hfil
      obtain ⟨g', gs', hgg, htail2, hg'⟩ := List.forall₂_cons_left_iff.mp hfil
      refine ⟨pyMax (fun atk => atk.move.accuracy) g' gs', ?_, ?_⟩
      · exact find_best_move_acc_eq c rolls'
          { a with current_stats := { a.current_stats with health := hp } }
          { d with moves := ms } t' g' ts' gs' hta' hg'
      · rw [hb]
        exact (pyMax_keyEq (fun atk => atk.move.accuracy)
          (fun x y hxy => congrArg Move.accuracy hxy.1) htail2 hgg).1.symm

/-- C4: whenever `full_turn_interaction` runs a second half-turn, the
move used in it equals the move that the selection policy would pick
fresh, attacker and defender taken in their states after the first
half-turn (for any damage-variance draws, since the theoretical
evaluation ignores them).  This holds because the first half-turn only
changes the health of one side and the move PP of the other, and the
selection reads neither the health of the attacker nor the moves of the
defender nor any PP. -/
theorem full_turn_second_move_reselected (c : PokemonDamageCalculator)
    (rolls1 rolls2 : ℕ → ℚ) (r1 r2 : ℚ) (roll1 roll2 : Roll)
    (p1 p2 : Pokemon) (rm : Bool) (h1 h2 : HalfTurn)
    (hrun : full_turn_interaction c rolls1 rolls2 r1 r2 roll1 roll2 p1 p2 rm
      = .ok (h1, some h2)) :
    ∀ rolls' : ℕ → ℚ, ∃ b,
      find_best_move c rolls' h2.attacker h2.defender = .ok b ∧
        b.move = h2.move := by
  unfold full_turn_interaction at hrun
  cases hb1 : find_best_move c rolls1 p1 p2 with
  | error e => rw [hb1] at hrun; exact absurd hrun (by simp)
  | ok b1 =>
  rw [hb1] at hrun
  cases hb2 : find_best_move c rolls2 p2 p1 with
  | error e => rw [hb2] at hrun; exact absurd hrun (by simp)
  | ok b2 =>
  rw [hb2] at hrun
  dsimp only at hrun
  cases htup : tupleGe3 (b1.move.priority, p1.current_stats.speed, r1)
      (b2.move.priority, p2.current_stats.speed, r2) with
  | true =>
    simp only [htup, if_true] at hrun
    by_cases hhp : 0 <
        (c.resolve_interaction p1 p2 b1.move rm roll1).2.1.current_stats.health
    · rw [if_pos hhp] at hrun
      simp only [Except.ok.injEq, Prod.mk.injEq, Option.some.injEq] at hrun
      obtain ⟨-, hh2⟩ := hrun
      rw [← hh2]
      dsimp only
      obtain ⟨hp, hdefn⟩ : ∃ hp,
          (c.resolve_interaction p1 p2 b1.move rm roll1).2.1 =
            { p2 with current_stats := { p2.current_stats with health := hp } } := by
        rcases resolve_defender_cases c p1 p2 b1.move rm roll1 with hc | hc
        · exact ⟨p2.current_stats.health, by rw [hc]⟩
        · exact ⟨max 0 (p2.current_stats.health -
            (c.calculate_damage p1 p2 b1.move rm roll1).effective_damage),
            by rw [hc]; rfl⟩
      have hatk : (c.resolve_interaction p1 p2 b1.move rm roll1).1 =
          { p1 with moves := (decrementFirst p1.moves b1.move).1 } := by
        rw [resolve_interaction_eq]
      intro rolls'
      rw [hdefn, hatk]
      obtain ⟨b, hfind, hbm⟩ := find_best_move_congr c rolls2 rolls' p2 p1 hp
        (decrementFirst p1.moves b1.move).1 b2 hb2
      exact ⟨b, hfind, by rw [hbm]⟩
    · rw [if_neg hhp] at hrun
      simp at hrun
  | false =>
    simp only [htup, Bool.false_eq_true, if_false] at hrun
    by_cases hhp : 0 <
        (c.resolve_interaction p2 p1 b2.move rm roll1).2.1.current_stats.health
    · rw [if_pos hhp] at hrun
      simp only [Except.ok.injEq, Prod.mk.injEq, Option.some.injEq] at hrun
      obtain ⟨-, hh2⟩ := hrun
      rw [← hh2]
      dsimp only
      obtain ⟨hp, hdefn⟩ : ∃ hp,
          (c.resolve_interaction p2 p1 b2.move rm roll1).2.1 =
            { p1 with current_stats := { p1.current_stats with health := hp } } := by
        rcases resolve_defender_cases c p2 p1 b2.move rm roll1 with hc | hc
        · exact ⟨p1.current_stats.health, by rw [hc]⟩
        · exact ⟨max 0 (p1.current_stats.health -
            (c.calculate_damage p2 p1 b2.move rm roll1).effective_damage),
            by rw [hc]; rfl⟩
      have hatk : (c.resolve_interaction p2 p1 b2.move rm roll1).1 =
          { p2 with moves := (decrementFirst p2.moves b2.move).1 } := by
        rw [resolve_interaction_eq]
      intro rolls'
      rw [hdefn, hatk]
      obtain ⟨b, hfind, hbm⟩ := find_best_move_congr c rolls1 rolls' p1 p2 hp
        (decrementFirst p2.moves b2.move).1 b1 hb1
      exact ⟨b, hfind, by rw [hbm]⟩
    · rw [if_neg hhp] at hrun
      simp at hrun

/-- C4, witness: a concrete full exchange between `pkmA` and `pkmB`
(both sides hit with `tackle` for 24 damage) runs a second half-turn, and
the reselection property holds at it. -/
theorem full_turn_second_move_reselected_witness :
    (full_turn_interaction calcTest (fun _ => 85) (fun _ => 85) 0 0
      ⟨50, 1, 85⟩ ⟨50, 1, 85⟩ pkmA pkmB true = .ok (h1val, some h2val)) ∧
    ∀ rolls' : ℕ → ℚ, ∃ b,
      find_best_move calcTest rolls' h2val.attacker h2val.defender = .ok b ∧
        b.move = h2val.move := by
  have hrun : full_turn_interaction calcTest (fun _ => 85) (fun _ => 85) 0 0
      ⟨50, 1, 85⟩ ⟨50, 1, 85⟩ pkmA pkmB true = .ok (h1val, some h2val) := by
    norm_num [full_turn_interaction, find_best_move, tupleGe3,
      PokemonDamageCalculator.compute_theoretical_attack,
      PokemonDamageCalculator.compute_base_damage,
      PokemonDamageCalculator.resolve_interaction,
      PokemonDamageCalculator.calculate_damage,
      PokemonDamageCalculator.return_miss_attack,
      PokemonDamageCalculator.total_effectiveness,
      PokemonDamageCalculator.get_effectiveness,
      rawDamage, attackStat, defenseStat, display_damage_range, round2, pyRound,
      pyInt, get_random_damage_multiplier, weighted_values, move_hit, is_crit_hit,
      Stats.get_crit_chance, tabCritChance, decrementFirst, Pokemon.take_damage,
      pyMax, List.enum, List.enumFrom, calcTest, chartAll1, pkmA, pkmB, tackle,
      statsTest, tackle9, stats76, pkmA9, pkmB76, pkmB76_9, pkmA9_76, h1val, h2val]
  exact ⟨hrun, full_turn_second_move_reselected calcTest (fun _ => 85)
    (fun _ => 85) 0 0 ⟨50, 1, 85⟩ ⟨50, 1, 85⟩ pkmA pkmB true h1val h2val hrun⟩

/-! ## Claims C6 and C7: the GUI battle loop -/

theorem battle_turn_first_is (c : PokemonDamageCalculator)
    (selRolls1 selRolls2 : ℕ → ℚ) (roll1 roll2 : Roll) (t1 t2 : Team)
    (a1 a2 : Pokemon) (out : TurnOutcome)
    (h1 : t1.active_pokemon = some a1) (h2 : t2.active_pokemon = some a2)
    (hrun : battle_turn c selRolls1 selRolls2 roll1 roll2 t1 t2 = .ok out) :
    out.first_is_team1 =
      decide (a2.current_stats.speed ≤ a1.current_stats.speed) := by
  unfold battle_turn at hrun
  rw [h1, h2] at hrun
  dsimp only at hrun
  by_cases hdef : (t1.is_defeated || t2.is_defeated) = true
  · rw [if_pos hdef] at hrun
    injection hrun with h
    rw [← h]
  · rw [if_neg hdef] at hrun
    repeat' split at hrun
    all_goals first
      | (exact Except.noConfusion hrun)
      | (injection hrun with h; rw [← h])

/-- C6, amended: in a battle-loop turn the side whose active member has
the strictly higher current speed attacks first, and on exactly equal
speeds team 1 always attacks first — the source ordering is
`speed1 >= speed2` with no random tie-break. -/
theorem battle_turn_order_spec (c : PokemonDamageCalculator)
    (selRolls1 selRolls2 : ℕ → ℚ) (roll1 roll2 : Roll) (t1 t2 : Team)
    (a1 a2 : Pokemon) (out : TurnOutcome)
    (h1 : t1.active_pokemon = some a1) (h2 : t2.active_pokemon = some a2)
    (hrun : battle_turn c selRolls1 selRolls2 roll1 roll2 t1 t2 = .ok out) :
    (a2.current_stats.speed < a1.current_stats.speed →
      out.first_is_team1 = true) ∧
    (a1.current_stats.speed < a2.current_stats.speed →
      out.first_is_team1 = false) ∧
    (a1.current_stats.speed = a2.current_stats.speed →
      out.first_is_team1 = true) := by
  have hkey := battle_turn_first_is c selRolls1 selRolls2 roll1 roll2 t1 t2
    a1 a2 out h1 h2 hrun
  rw [hkey]
  refine ⟨fun hlt => ?_, fun hlt => ?_, fun heq => ?_⟩
  · simp [le_of_lt hlt]
  · simp [not_le.mpr hlt]
  · simp [le_of_eq heq.symm]

theorem battle_turn_concrete_eval :
    battle_turn calcTest (fun _ => 85) (fun _ => 85) ⟨99, 1, 85⟩ ⟨99, 1, 85⟩
      ⟨"t1", [pkmA], 0⟩ ⟨"t2", [pkmB], 0⟩ = .ok outVal := by
  norm_num [battle_turn, gui_attack_block, gui_auto_switch, Team.active_pokemon,
    Team.is_defeated, Team.set_active, Team.get_available_switches, Team.switch_to,
    Pokemon.is_fainted, find_best_move, tupleGe3,
    PokemonDamageCalculator.compute_theoretical_attack,
    PokemonDamageCalculator.compute_base_damage,
    PokemonDamageCalculator.resolve_interaction,
    PokemonDamageCalculator.calculate_damage,
    PokemonDamageCalculator.return_miss_attack,
    PokemonDamageCalculator.total_effectiveness,
    PokemonDamageCalculator.get_effectiveness,
    rawDamage, attackStat, defenseStat, display_damage_range, round2, pyRound,
    pyInt, get_random_damage_multiplier, weighted_values, move_hit, is_crit_hit,
    Stats.get_crit_chance, tabCritChance, decrementFirst, Pokemon.take_damage,
    pyMax, List.enum, List.enumFrom, calcTest, chartAll1, pkmA, pkmB, tackle,
    statsTest, tackle9, pkmA9, pkmB9, outVal]

/-- C6, witness: the amended ordering specification holds at a concrete
turn between two single-member teams of equal speed 50. -/
theorem battle_turn_order_spec_witness :
    (⟨"t1", [pkmA], 0⟩ : Team).active_pokemon = some pkmA ∧
    (⟨"t2", [pkmB], 0⟩ : Team).active_pokemon = some pkmB ∧
    battle_turn calcTest (fun _ => 85) (fun _ => 85) ⟨99, 1, 85⟩ ⟨99, 1, 85⟩
      ⟨"t1", [pkmA], 0⟩ ⟨"t2", [pkmB], 0⟩ = .ok outVal ∧
    ((pkmB.current_stats.speed < pkmA.current_stats.speed →
        outVal.first_is_team1 = true) ∧
     (pkmA.current_stats.speed < pkmB.current_stats.speed →
        outVal.first_is_team1 = false) ∧
     (pkmA.current_stats.speed = pkmB.current_stats.speed →
        outVal.first_is_team1 = true)) :=
  ⟨rfl, rfl, battle_turn_concrete_eval,
   battle_turn_order_spec calcTest (fun _ => 85) (fun _ => 85)
     ⟨99, 1, 85⟩ ⟨99, 1, 85⟩ ⟨"t1", [pkmA], 0⟩ ⟨"t2", [pkmB], 0⟩ pkmA pkmB
     outVal rfl rfl battle_turn_concrete_eval⟩

/-- C6, counterexample: two teams whose active members have exactly equal
speed 50; for every random draw the loop consumes, whenever a turn
resolves, team 1 attacks first — the tie is not decided by any random
draw, and team 2 can never act first.  A concrete resolving turn shows
the situation is reachable. -/
theorem battle_turn_tie_goes_to_team1 :
    pkmA.current_stats.speed = pkmB.current_stats.speed ∧
    (∀ (selRolls1 selRolls2 : ℕ → ℚ) (roll1 roll2 : Roll) (out : TurnOutcome),
      battle_turn calcTest selRolls1 selRolls2 roll1 roll2
        ⟨"t1", [pkmA], 0⟩ ⟨"t2", [pkmB], 0⟩ = .ok out →
      out.first_is_team1 = true) ∧
    (battle_turn calcTest (fun _ => 85) (fun _ => 85) ⟨99, 1, 85⟩ ⟨99, 1, 85⟩
        ⟨"t1", [pkmA], 0⟩ ⟨"t2", [pkmB], 0⟩ = .ok outVal ∧
      outVal.first_is_team1 = true) := by
  refine ⟨?_, ?_, battle_turn_concrete_eval, rfl⟩
  · norm_num [pkmA, pkmB, statsTest]
  · intro selRolls1 selRolls2 roll1 roll2 out hrun
    have hkey := battle_turn_first_is calcTest selRolls1 selRolls2 roll1 roll2
      ⟨"t1", [pkmA], 0⟩ ⟨"t2", [pkmB], 0⟩ pkmA pkmB out rfl rfl hrun
    rw [hkey]
    norm_num [pkmA, pkmB, statsTest]

theorem gui_attack_block_double_damage (c : PokemonDamageCalculator)
    (selRolls : ℕ → ℚ) (roll : Roll) (attacker defender atk2 dfn2 : Pokemon)
    (res : Attack)
    (h : gui_attack_block c selRolls roll attacker defender = .ok (atk2, dfn2, res))
    (hmiss : res.missed = false) :
    dfn2.current_stats.health =
      max 0 (max 0 (defender.current_stats.health - res.effective_damage)
        - res.effective_damage) := by
  unfold gui_attack_block at h
  cases hb : find_best_move c selRolls attacker defender with
  | error e => rw [hb] at h; exact absurd h (by simp)
  | ok best =>
    rw [hb] at h
    dsimp only at h
    rw [resolve_interaction_eq] at h
    dsimp only at h
    simp only [Except.ok.injEq, Prod.mk.injEq] at h
    obtain ⟨-, hdfn, hres⟩ := h
    rw [← hres] at hmiss
    dsimp only at hmiss
    rw [← hdfn, ← hres]
    dsimp only
    rw [if_pos (by rw [hmiss]; exact Bool.false_ne_true),
      if_pos (by rw [hmiss]; exact Bool.false_ne_true)]
    rfl

/-- C7, witness: a concrete hit in a GUI half-turn.  The resolved
effective damage is 24, `resolve_interaction` already reduced the
defender to 76 health, and the loop applies the same 24 again, leaving
52 = max 0 (max 0 (100 - 24) - 24). -/
theorem gui_attack_block_double_damage_witness :
    gui_attack_block calcTest (fun _ => 85) ⟨50, 1, 85⟩ pkmA pkmB =
      .ok (pkmA9, pkmB52, resVal) ∧
    resVal.missed = false ∧
    pkmB52.current_stats.health =
      max 0 (max 0 (pkmB.current_stats.health - resVal.effective_damage)
        - resVal.effective_damage) := by
  have hrun : gui_attack_block calcTest (fun _ => 85) ⟨50, 1, 85⟩ pkmA pkmB =
      .ok (pkmA9, pkmB52, resVal) := by
    norm_num [gui_attack_block, find_best_move,
      PokemonDamageCalculator.compute_theoretical_attack,
      PokemonDamageCalculator.compute_base_damage,
      PokemonDamageCalculator.resolve_interaction,
      PokemonDamageCalculator.calculate_damage,
      PokemonDamageCalculator.return_miss_attack,
      PokemonDamageCalculator.total_effectiveness,
      PokemonDamageCalculator.get_effectiveness,
      rawDamage, attackStat, defenseStat, display_damage_range, round2, pyRound,
      pyInt, get_random_damage_multiplier, weighted_values, move_hit, is_crit_hit,
      Stats.get_crit_chance, tabCritChance, decrementFirst, Pokemon.take_damage,
      pyMax, List.enum, List.enumFrom, calcTest, chartAll1, pkmA, pkmB, tackle,
      statsTest, tackle9, pkmA9, pkmB76, stats76, stats52, pkmB52, resVal]
  exact ⟨hrun, rfl,
    gui_attack_block_double_damage calcTest (fun _ => 85) ⟨50, 1, 85⟩
      pkmA pkmB pkmA9 pkmB52 resVal hrun rfl⟩

end PokemonML
